import Mathlib

/-!
Verification of the Serie A match predictor serving core.

The development shallowly embeds the data-preparation pipeline
(`_prepare_dataset`), the form resolvers (`_get_team_form`,
`_get_matchup_form`), the inference post-processing (`predict`) and the
analytics views (`recent_results`, `head_to_head`, `list_formations`) of
`app/predictor.py` (and the matching module-level code of `serieA.py`).
Numeric match metrics (`gf`, `ga`, `xg`, `xga`) and all derived form
values are modelled as exact rationals; missing values (NaN) are modelled
as `none : Option ℚ`; calendar dates as naturals; strings as Lean strings
compared by code point, as Python compares them.
-/

namespace SerieA

/-- One row of the raw historical match log, after the irrelevant columns
have been dropped and the date parsed (`_prepare_dataset`, up to line 80). -/
structure MatchRow where
  team : String
  opponent : String
  date : Nat
  gf : ℚ
  ga : ℚ
  xg : ℚ
  xga : ℚ
deriving DecidableEq, Repr

/-- Code-point comparison of character lists: the lexicographic order Python
uses on strings. -/
def charListLtB : List Char → List Char → Bool
  | [], [] => false
  | [], _ :: _ => true
  | _ :: _, [] => false
  | a :: as, b :: bs =>
      if a.toNat < b.toNat then true
      else if b.toNat < a.toNat then false
      else charListLtB as bs

/-- Strict lexicographic order on strings by code point. -/
def strLtB (a b : String) : Bool := charListLtB a.data b.data

/-- Insert `x` into `l` behind every element `e` with `le e x = true`.
Keeps equal keys in their original relative order. -/
def insertLe {α : Type _} (le : α → α → Bool) (x : α) : List α → List α
  | [] => [x]
  | h :: t => if le h x then h :: insertLe le x t else x :: h :: t

/-- Stable sort by a boolean comparison, modelling `DataFrame.sort_values`
(a stable order on the distinct-key inputs the claims quantify over). -/
def sortBy {α : Type _} (le : α → α → Bool) (xs : List α) : List α :=
  xs.foldl (fun acc x => insertLe le x acc) []

/-- Sort key of `df.sort_values(["team", "date"])`. -/
def leTeamDate (a b : MatchRow) : Bool :=
  if a.team = b.team then decide (a.date ≤ b.date) else strLtB a.team b.team

/-- Sort key of `df.sort_values(["team", "opponent", "date"])`. -/
def leTeamOppDate (a b : MatchRow) : Bool :=
  if a.team = b.team then
    (if a.opponent = b.opponent then decide (a.date ≤ b.date)
     else strLtB a.opponent b.opponent)
  else strLtB a.team b.team

/-- Association-list lookup by decidable equality. -/
def alookup {κ β : Type _} [DecidableEq κ] (k : κ) : List (κ × β) → Option β
  | [] => none
  | (k1, v) :: t => if k = k1 then some v else alookup k t

/-- Helper for `groupShift`, carrying the most recent metric value seen for
each key. -/
def groupShiftAux {κ : Type _} [DecidableEq κ] (key : MatchRow → κ)
    (m : MatchRow → ℚ) : List (κ × ℚ) → List MatchRow → List (Option ℚ)
  | _, [] => []
  | seen, r :: rs =>
      alookup (key r) seen :: groupShiftAux key m ((key r, m r) :: seen) rs

/-- Models `df.groupby(key)[col].shift()`: the value at each row is the
metric of the nearest earlier row with the same key, `none` (NaN) if there
is no earlier such row. -/
def groupShift {κ : Type _} [DecidableEq κ] (key : MatchRow → κ)
    (m : MatchRow → ℚ) (rows : List MatchRow) : List (Option ℚ) :=
  groupShiftAux key m [] rows

/-- Running state of pandas `ewm(adjust=False, ignore_na=False).mean()`:
the current weighted average (none before the first observation) and the
relative weight it would get against a new observation, which decays by
`1 - a` at every position, including NaN positions. -/
structure EwmState where
  mean : Option ℚ
  oldWt : ℚ
deriving Repr

/-- One step of pandas `Series.ewm(adjust=False, ignore_na=False).mean()`. -/
def ewmStep (a : ℚ) (s : EwmState) (x : Option ℚ) : EwmState :=
  match s.mean, x with
  | none, none => s
  | none, some v => { mean := some v, oldWt := 1 }
  | some m, none => { mean := some m, oldWt := s.oldWt * (1 - a) }
  | some m, some v =>
      let ow := s.oldWt * (1 - a)
      { mean := some ((ow * m + a * v) / (ow + a)), oldWt := 1 }

/-- Positionwise outputs of the exponentially weighted mean: with
`min_periods=1` the output at a position is the state's mean (NaN until
the first observation, carried forward across NaN inputs afterwards). -/
def ewmOut (a : ℚ) : EwmState → List (Option ℚ) → List (Option ℚ)
  | _, [] => []
  | s, x :: xs =>
      let s1 := ewmStep a s x
      s1.mean :: ewmOut a s1 xs

/-- Models `Series.ewm(alpha=a, min_periods=1, adjust=False).mean()` over a
whole series.  Note this is a method of the plain `Series`, not of a
groupby object: the recursion runs over the entire series. -/
def ewmMean (a : ℚ) (xs : List (Option ℚ)) : List (Option ℚ) :=
  ewmOut a { mean := none, oldWt := 1 } xs

/-- The team-level EWM column exactly as `_prepare_dataset` computes it
(predictor.py lines 82-89, serieA.py lines 18-26): sort by (team, date),
shift within each team group, then apply `ewm(span=5, ...)` — with
`span=5` the smoothing factor is `2/(span+1) = 1/3` — to the resulting
whole series.  The output is aligned with `sortBy leTeamDate df`. -/
def teamEwmCode (m : MatchRow → ℚ) (df : List MatchRow) : List (Option ℚ) :=
  ewmMean (1/3) (groupShift (fun r => r.team) m (sortBy leTeamDate df))

/-- The matchup-level EWM column exactly as `_prepare_dataset` computes it
(predictor.py lines 91-98, serieA.py lines 28-36): sort by
(team, opponent, date), shift within each (team, opponent) group, then
apply `ewm(alpha=0.6, ...)` to the resulting whole series.  The output is
aligned with `sortBy leTeamOppDate df`. -/
def matchupEwmCode (m : MatchRow → ℚ) (df : List MatchRow) : List (Option ℚ) :=
  ewmMean (3/5) (groupShift (fun r => (r.team, r.opponent)) m (sortBy leTeamOppDate df))

/-- The spec's EWM recurrence `ewm[0] = x[0]`, `ewm[i] = a*x[i] + (1-a)*ewm[i-1]`,
folded over a list of prior values; `none` when there are no priors. -/
def ewmPriorSpec (a : ℚ) : Option ℚ → List ℚ → Option ℚ
  | acc, [] => acc
  | none, x :: xs => ewmPriorSpec a (some x) xs
  | some y, x :: xs => ewmPriorSpec a (some (a * x + (1 - a) * y)) xs

/-- Helper collecting, for each row in order, the list of strictly prior
metric values of rows with the same key. -/
def priorsAux {κ : Type _} [DecidableEq κ] (key : MatchRow → κ)
    (m : MatchRow → ℚ) : List (κ × List ℚ) → List MatchRow → List (List ℚ)
  | _, [] => []
  | seen, r :: rs =>
      let ps := (alookup (key r) seen).getD []
      ps :: priorsAux key m ((key r, ps ++ [m r]) :: seen) rs

/-- Modelled from the spec: the team-level form column with the EWM
recursion computed over only the strictly prior values of each row's own
team group, restarting fresh at each new team group (spec §4.1 step 2).
Aligned with `sortBy leTeamDate df`. -/
def teamEwmSpec (m : MatchRow → ℚ) (df : List MatchRow) : List (Option ℚ) :=
  (priorsAux (fun r => r.team) m [] (sortBy leTeamDate df)).map
    (ewmPriorSpec (1/3) none)

/-- Modelled from the spec: the matchup-level form column with the EWM
recursion (alpha = 0.6) computed over only the strictly prior values of
each row's own (team, opponent) group, restarting fresh at each new group
(spec §4.1 step 3).  Aligned with `sortBy leTeamOppDate df`. -/
def matchupEwmSpec (m : MatchRow → ℚ) (df : List MatchRow) : List (Option ℚ) :=
  (priorsAux (fun r => (r.team, r.opponent)) m [] (sortBy leTeamOppDate df)).map
    (ewmPriorSpec (3/5) none)

/-- A four-row log with two teams: team A plays on dates 1 and 2 scoring
7 and 5, team B plays on dates 3 and 4 scoring 0 and 9. -/
def leakDf : List MatchRow :=
  [⟨"A", "X", 1, 7, 0, 0, 0⟩,
   ⟨"A", "Y", 2, 5, 0, 0, 0⟩,
   ⟨"B", "X", 3, 0, 0, 0, 0⟩,
   ⟨"B", "Y", 4, 9, 0, 0, 0⟩]

/-- A four-row log with one team facing two opponents: versus X on dates
1 and 2 scoring 6 and 2, versus Y on dates 3 and 4 scoring 0 and 8. -/
def leakMatchupDf : List MatchRow :=
  [⟨"A", "X", 1, 6, 0, 0, 0⟩,
   ⟨"A", "X", 2, 2, 0, 0, 0⟩,
   ⟨"A", "Y", 3, 0, 0, 0, 0⟩,
   ⟨"A", "Y", 4, 8, 0, 0, 0⟩]

/-! The prepared Match History Store (`self.df` after `_prepare_dataset`):
every row carries the raw metrics and the eight renamed derived form
columns, all numeric and non-missing after the fallback fill; the
formation labels can be missing. -/

/-- One row of the prepared history table. -/
structure FormRow where
  team : String
  opponent : String
  date : Nat
  formation : Option String
  oppFormation : Option String
  gf : ℚ
  ga : ℚ
  xg : ℚ
  xga : ℚ
  gm_form : ℚ
  ga_form : ℚ
  xg_form : ℚ
  xga_form : ℚ
  gf_vs_opp : ℚ
  ga_vs_opp : ℚ
  xg_vs_opp : ℚ
  xga_vs_opp : ℚ
deriving DecidableEq, Repr

/-- Shorthand for a prepared row whose derived and xG columns are zero. -/
def mkFormRow (team opponent : String) (date : Nat) (gf ga : ℚ) : FormRow :=
  ⟨team, opponent, date, none, none, gf, ga, 0, 0, 0, 0, 0, 0, 0, 0, 0, 0⟩

/-- Ascending-date comparison, the key of `sort_values("date")`. -/
def dateLeB (a b : FormRow) : Bool := decide (a.date ≤ b.date)

/-- Descending-date comparison, the key of
`sort_values("date", ascending=False)`. -/
def dateGeB (a b : FormRow) : Bool := decide (b.date ≤ a.date)

/-- W/D/L classification of a goals-for/goals-against pair, as written in
`recent_results` and `head_to_head`. -/
def rowResult (gf ga : ℚ) : String :=
  if gf > ga then "W" else if gf < ga then "L" else "D"

/-- One record returned by `head_to_head`. -/
structure H2HRec where
  date : Nat
  team : String
  opponent : String
  gf : ℚ
  ga : ℚ
  result : String
deriving DecidableEq, Repr

/-- `PredictorService.head_to_head` (predictor.py lines 263-304): rows
where the pair appears in either orientation, newest first, truncated to
`limit`; the result letter is chosen by comparing goals from the queried
team's side (`if primary_team == team` branch). The `%Y-%m-%d` date
formatting is modelled by keeping the ordinal date. -/
def headToHead (df : List FormRow) (team opponent : String) (limit : Nat) :
    List H2HRec :=
  ((sortBy dateGeB (df.filter (fun r =>
      decide ((r.team = team ∧ r.opponent = opponent) ∨
        (r.team = opponent ∧ r.opponent = team))))).take limit).map
    (fun r =>
      { date := r.date, team := r.team, opponent := r.opponent,
        gf := r.gf, ga := r.ga,
        result :=
          if r.team = team then
            (if r.gf > r.ga then "W" else if r.gf < r.ga then "L" else "D")
          else
            (if r.gf < r.ga then "W" else if r.gf > r.ga then "L" else "D") })

/-- A single stored match seen from Parma's side: Parma 2-1 Inter. -/
def h2hDf : List FormRow := [mkFormRow "P" "I" 5 2 1]

/-- Arithmetic mean of a list of rationals, `0` when the list is empty:
models `Series.mean()` followed by `fillna(0.0)` on an all-valid column. -/
def meanOr0 (xs : List ℚ) : ℚ := if xs.length = 0 then 0 else xs.sum / xs.length

/-- The four team-level form values returned by `_get_team_form`. -/
structure FormSnapshot where
  gm_form : ℚ
  ga_form : ℚ
  xg_form : ℚ
  xga_form : ℚ
deriving DecidableEq, Repr

/-- The four matchup-level form values returned by `_get_matchup_form`. -/
structure MatchupSnapshot where
  gf_vs_opp : ℚ
  ga_vs_opp : ℚ
  xg_vs_opp : ℚ
  xga_vs_opp : ℚ
deriving DecidableEq, Repr

/-- The team-form half of `default_forms` (predictor.py lines 46-51):
column means over the prepared table, `0.0` when the table is empty. -/
def defaultTeamForms (df : List FormRow) : FormSnapshot :=
  ⟨meanOr0 (df.map (·.gm_form)), meanOr0 (df.map (·.ga_form)),
   meanOr0 (df.map (·.xg_form)), meanOr0 (df.map (·.xga_form))⟩

/-- The team's rows sorted by date ascending (`_get_team_form`, line 128). -/
def teamHistory (df : List FormRow) (team : String) : List FormRow :=
  sortBy dateLeB (df.filter (fun r => decide (r.team = team)))

/-- `PredictorService._get_team_form` (predictor.py lines 127-135):
the four form columns of the last row of the date-sorted team history,
or the default forms when the team has no rows. -/
def teamForm (df : List FormRow) (team : String) : FormSnapshot :=
  match (teamHistory df team).getLast? with
  | none => defaultTeamForms df
  | some latest => ⟨latest.gm_form, latest.ga_form, latest.xg_form, latest.xga_form⟩

/-- The (team, opponent) rows sorted by date ascending
(`_get_matchup_form`, lines 138-141). -/
def matchupHistory (df : List FormRow) (team opponent : String) : List FormRow :=
  sortBy dateLeB (df.filter (fun r =>
    decide (r.team = team ∧ r.opponent = opponent)))

/-- `PredictorService._get_matchup_form` (predictor.py lines 137-154):
the four matchup columns of the latest shared row, falling back to the
team's own form snapshot re-labeled into the matchup schema. -/
def matchupForm (df : List FormRow) (team opponent : String) : MatchupSnapshot :=
  match (matchupHistory df team opponent).getLast? with
  | none =>
      let tf := teamForm df team
      ⟨tf.gm_form, tf.ga_form, tf.xg_form, tf.xga_form⟩
  | some latest =>
      ⟨latest.gf_vs_opp, latest.ga_vs_opp, latest.xg_vs_opp, latest.xga_vs_opp⟩

/-- The team's rows sorted by date descending and truncated
(`recent_results`, lines 248-252). -/
def recentRows (df : List FormRow) (team : String) (limit : Nat) : List FormRow :=
  (sortBy dateGeB (df.filter (fun r => decide (r.team = team)))).take limit

/-- `PredictorService.recent_results` (predictor.py lines 247-261). -/
def recentResults (df : List FormRow) (team : String) (limit : Nat) : List String :=
  (recentRows df team limit).map (fun r => rowResult r.gf r.ga)

/-- Insert a string into a strictly sorted list, dropping duplicates:
the canonical sorted-set construction behind `sorted(set1.union(set2))`. -/
def insertSortedNodup (x : String) : List String → List String
  | [] => [x]
  | h :: t =>
      if strLtB x h then x :: h :: t
      else if x = h then h :: t
      else h :: insertSortedNodup x t

/-- Sorted deduplication of a list of strings. -/
def dedupSorted (l : List String) : List String :=
  l.foldl (fun acc x => insertSortedNodup x acc) []

/-- `PredictorService.list_formations` (predictor.py lines 218-221): the
union of the non-missing (`dropna`) values of the `formation` and
`opp formation` columns, as a sorted duplicate-free list. -/
def listFormations (df : List FormRow) : List String :=
  dedupSorted (df.filterMap (·.formation) ++ df.filterMap (·.oppFormation))

/-- `Series.mean()` of a column with missing values: skips NaN, NaN when
no valid entries exist. -/
def colMean (xs : List (Option ℚ)) : Option ℚ :=
  let vals := xs.filterMap id
  if vals.length = 0 then none else some (vals.sum / vals.length)

/-- `df.groupby("team")[col].transform("mean")` evaluated at team `t`. -/
def teamMeanCol (col : List (String × Option ℚ)) (t : String) : Option ℚ :=
  colMean ((col.filter (fun p => decide (p.1 = t))).map Prod.snd)

/-- Tier 1: `df[col] = df[col].fillna(team_mean)` (predictor.py lines
108-109, serieA.py lines 43-45). -/
def fillTeamMean (col : List (String × Option ℚ)) : List (String × Option ℚ) :=
  col.map (fun p => (p.1,
    match p.2 with
    | some v => some v
    | none => teamMeanCol col p.1))

/-- Tier 2: `df[col] = df[col].fillna(df[col].mean())` (predictor.py line
110, serieA.py lines 47-48), applied to its input column as it stands. -/
def fillColMean (col : List (String × Option ℚ)) : List (String × Option ℚ) :=
  col.map (fun p => (p.1,
    match p.2 with
    | some v => some v
    | none => colMean (col.map Prod.snd)))

/-- Tier 3: `df[ewm_cols] = df[ewm_cols].fillna(0.0)` (predictor.py line
111, serieA.py line 50). -/
def fillZero (col : List (String × Option ℚ)) : List (String × Option ℚ) :=
  col.map (fun p => (p.1, some (p.2.getD 0)))

/-- The three-stage missing-value fill applied to one derived column,
keyed by the row's team.  The preceding re-sort by (team, date) permutes
rows but both means are order-independent, so the fill is modelled on the
column in place. -/
def fillDerived (col : List (String × Option ℚ)) : List (String × Option ℚ) :=
  fillZero (fillColMean (fillTeamMean col))

/-- A derived column over three rows: team A with one valid and one
missing value, team B with only a missing value. -/
def c4Col : List (String × Option ℚ) := [("A", some 2), ("A", none), ("B", none)]

/-- `np.round`: round half to even, exact on the rational value. -/
def npRound (x : ℚ) : ℤ :=
  if x - Int.floor x < 1/2 then Int.floor x
  else if (1:ℚ)/2 < x - Int.floor x then Int.floor x + 1
  else if Int.floor x % 2 = 0 then Int.floor x else Int.floor x + 1

/-- `np.clip(v, lo, hi)` on integers. -/
def npClip (lo hi v : ℤ) : ℤ := min (max v lo) hi

/-- The record returned by `predict` (predictor.py lines 202-213). -/
structure PredictionResult where
  team : String
  opponent : String
  venue : String
  formation : String
  oppFormation : String
  predGoalsFor : ℚ
  predGoalsAgainst : ℚ
  predGoalsForRound : ℤ
  predGoalsAgainstRound : ℤ
  result : String
deriving DecidableEq, Repr

/-- The post-processing tail of `PredictorService.predict` (predictor.py
lines 189-213) as a function of the two raw regressor outputs:
`int(np.clip(np.round(pred), 0, 15))` for the round fields and the
rounded-integer comparison for the result letter. -/
def predictFrom (team opponent venue formation oppF : String)
    (predGf predGa : ℚ) : PredictionResult :=
  { team := team, opponent := opponent, venue := venue,
    formation := formation, oppFormation := oppF,
    predGoalsFor := predGf, predGoalsAgainst := predGa,
    predGoalsForRound := npClip 0 15 (npRound predGf),
    predGoalsAgainstRound := npClip 0 15 (npRound predGa),
    result :=
      if npClip 0 15 (npRound predGf) > npClip 0 15 (npRound predGa) then "W"
      else if npClip 0 15 (npRound predGf) < npClip 0 15 (npRound predGa) then "L"
      else "D" }

/-- The fixed-schema feature record assembled by `_build_feature_row`. -/
structure FeatureRow where
  venue : String
  team : String
  opponent : String
  formation : String
  oppFormation : String
  gm_form : ℚ
  ga_form : ℚ
  xg_form : ℚ
  xga_form : ℚ
  gf_vs_opp : ℚ
  ga_vs_opp : ℚ
  xg_vs_opp : ℚ
  xga_vs_opp : ℚ

/-- `PredictorService._build_feature_row` (predictor.py lines 156-176). -/
def buildFeatureRow (df : List FormRow)
    (team opponent venue formation oppF : String) : FeatureRow :=
  let tf := teamForm df team
  let mf := matchupForm df team opponent
  ⟨venue, team, opponent, formation, oppF,
   tf.gm_form, tf.ga_form, tf.xg_form, tf.xga_form,
   mf.gf_vs_opp, mf.ga_vs_opp, mf.xg_vs_opp, mf.xga_vs_opp⟩

/-- A fitted encoder artifact, opaque to the serving core. -/
def Encoder : Type := FeatureRow → List ℚ

/-- A fitted regressor artifact, opaque to the serving core. -/
def Model : Type := List ℚ → ℚ

/-- The attribute state of a `PredictorService` instance: the prepared
table and the three artifact attributes, each possibly unset. -/
structure ServiceState where
  df : List FormRow
  preprocessor : Option Encoder
  model_gf : Option Model
  model_ga : Option Model

/-- The failure vocabulary needed to state claims about `predict`:
`attributeMissing` is Python's generic missing-attribute failure;
`modelNotLoaded` stands for the spec's ModelNotLoadedError, which no code
in the repository defines or raises. -/
inductive PyError where
  | attributeMissing
  | modelNotLoaded
deriving DecidableEq, Repr

/-- `PredictorService.predict` (predictor.py lines 178-213) over an
explicit attribute state.  The source performs no loaded-artifacts check:
it dereferences `self.preprocessor`, `self.model_gf` and `self.model_ga`
directly, so a hypothetical state with unset artifact attributes could
only fail with the generic missing-attribute error. -/
def predictService (s : ServiceState)
    (team opponent venue formation oppF : String) :
    Except PyError PredictionResult :=
  match s.preprocessor, s.model_gf, s.model_ga with
  | some pre, some mgf, some mga =>
      let row := buildFeatureRow s.df team opponent venue formation oppF
      let enc := pre row
      Except.ok (predictFrom team opponent venue formation oppF (mgf enc) (mga enc))
  | _, _, _ => Except.error PyError.attributeMissing

/-- `PredictorService.__init__` (predictor.py lines 40-44): each artifact
is loaded unconditionally; a failed load (`none`) aborts construction, so
no service instance with a missing artifact is ever produced. -/
def initService (df : List FormRow) (pre : Option Encoder)
    (mgf mga : Option Model) : Option ServiceState :=
  match pre, mgf, mga with
  | some p, some g, some a =>
      some { df := df, preprocessor := some p, model_gf := some g, model_ga := some a }
  | _, _, _ => none

/-- A trivial fitted encoder used as a concrete artifact. -/
def trivEncoder : Encoder := fun _ => [0]

/-- A trivial fitted regressor used as a concrete artifact. -/
def trivModel : Model := fun _ => 0

/-- Team T's first prepared row: a 1-0 win on date 1. -/
def c5r1 : FormRow :=
  { mkFormRow "T" "U" 1 1 0 with
    gm_form := 10, ga_form := 11, xg_form := 12, xga_form := 13 }

/-- Team T's second prepared row: a 2-0 win on date 2, the latest. -/
def c5r2 : FormRow :=
  { mkFormRow "T" "U" 2 2 0 with
    gm_form := 20, ga_form := 21, xg_form := 22, xga_form := 23 }

/-- Team U's prepared row on date 3. -/
def c5r3 : FormRow := mkFormRow "U" "T" 3 0 0

/-- A three-row prepared table with two teams. -/
def c5Df : List FormRow := [c5r1, c5r2, c5r3]

/-- A row with its own formation label and a missing opponent label. -/
def c10r1 : FormRow :=
  { mkFormRow "T" "U" 1 0 0 with formation := some "442", oppFormation := none }

/-- A row with a missing formation label and an opponent label. -/
def c10r2 : FormRow :=
  { mkFormRow "U" "T" 2 0 0 with formation := none, oppFormation := some "352" }

/-- A two-row prepared table with partly missing formation labels. -/
def c10Df : List FormRow := [c10r1, c10r2]

/-! Generic facts about the stable insertion sort. -/

theorem insertLe_perm {α : Type _} (le : α → α → Bool) (x : α) (l : List α) :
    (insertLe le x l).Perm (x :: l) := by
  induction l with
  | nil => simp [insertLe]
  | cons h t ih =>
      simp only [insertLe]
      by_cases hc : le h x = true
      · rw [if_pos hc]
        exact (ih.cons h).trans (List.Perm.swap x h t)
      · rw [if_neg hc]

theorem sortBy_foldl_perm {α : Type _} (le : α → α → Bool) :
    ∀ (l acc : List α),
      (l.foldl (fun acc x => insertLe le x acc) acc).Perm (acc ++ l)
  | [], acc => by simp
  | x :: xs, acc => by
      simp only [List.foldl_cons]
      refine (sortBy_foldl_perm le xs (insertLe le x acc)).trans ?_
      refine ((insertLe_perm le x acc).append_right xs).trans ?_
      simpa using List.perm_middle.symm

theorem sortBy_perm {α : Type _} (le : α → α → Bool) (l : List α) :
    (sortBy le l).Perm l := by
  simpa using sortBy_foldl_perm le l []

theorem mem_insertLe {α : Type _} (le : α → α → Bool) (x y : α) (l : List α) :
    y ∈ insertLe le x l ↔ y = x ∨ y ∈ l := by
  rw [(insertLe_perm le x l).mem_iff, List.mem_cons]

theorem insertLe_pairwise {α : Type _} (le : α → α → Bool)
    (htot : ∀ a b, le a b = true ∨ le b a = true)
    (htrans : ∀ a b c, le a b = true → le b c = true → le a c = true)
    (x : α) (l : List α) (hl : l.Pairwise (fun a b => le a b = true)) :
    (insertLe le x l).Pairwise (fun a b => le a b = true) := by
  induction l with
  | nil => simp [insertLe]
  | cons h t ih =>
      rcases List.pairwise_cons.mp hl with ⟨hh, ht⟩
      simp only [insertLe]
      by_cases hc : le h x = true
      · rw [if_pos hc]
        refine List.pairwise_cons.mpr ⟨?_, ih ht⟩
        intro y hy
        rcases (mem_insertLe le x y t).mp hy with hy | hy
        · exact hy ▸ hc
        · exact hh y hy
      · rw [if_neg hc]
        have hxh : le x h = true := (htot h x).resolve_left hc
        refine List.pairwise_cons.mpr ⟨?_, hl⟩
        intro y hy
        rcases List.mem_cons.mp hy with hy | hy
        · exact hy ▸ hxh
        · exact htrans x h y hxh (hh y hy)

theorem sortBy_foldl_pairwise {α : Type _} (le : α → α → Bool)
    (htot : ∀ a b, le a b = true ∨ le b a = true)
    (htrans : ∀ a b c, le a b = true → le b c = true → le a c = true) :
    ∀ (l acc : List α), acc.Pairwise (fun a b => le a b = true) →
      (l.foldl (fun acc x => insertLe le x acc) acc).Pairwise
        (fun a b => le a b = true)
  | [], _, hacc => hacc
  | x :: xs, acc, hacc => by
      simp only [List.foldl_cons]
      exact sortBy_foldl_pairwise le htot htrans xs (insertLe le x acc)
        (insertLe_pairwise le htot htrans x acc hacc)

theorem sortBy_pairwise {α : Type _} (le : α → α → Bool)
    (htot : ∀ a b, le a b = true ∨ le b a = true)
    (htrans : ∀ a b c, le a b = true → le b c = true → le a c = true)
    (l : List α) :
    (sortBy le l).Pairwise (fun a b => le a b = true) :=
  sortBy_foldl_pairwise le htot htrans l [] List.Pairwise.nil

/-- C1: the claim that the EWM recursion restarts fresh at each team (and
matchup) group, so that rows of a different group never contribute, is
violated by the code.  `shift()` is applied to the groupby object but
`ewm(...)` is applied to the resulting plain series, so the recursion runs
across group boundaries.  On `leakDf`, team B's first row (position 2 of
the sorted table) receives team A's value 7 and its second row receives
`((2/3)^2*7 + (1/3)*0) / ((2/3)^2 + 1/3) = 4`, where the spec's per-group
recurrence gives no prior value resp. `0`.  The matchup column leaks the
same way on `leakMatchupDf`: the (A, Y) rows receive 6 and 24/19 instead
of no value resp. 0. -/
theorem C1_team_and_matchup_ewm_leak_across_groups :
    (teamEwmCode (fun r => r.gf) leakDf)[2]? = some (some 7) ∧
    (teamEwmCode (fun r => r.gf) leakDf)[3]? = some (some 4) ∧
    (teamEwmSpec (fun r => r.gf) leakDf)[2]? = some none ∧
    (teamEwmSpec (fun r => r.gf) leakDf)[3]? = some (some 0) ∧
    (matchupEwmCode (fun r => r.gf) leakMatchupDf)[2]? = some (some 6) ∧
    (matchupEwmCode (fun r => r.gf) leakMatchupDf)[3]? = some (some (24/19)) ∧
    (matchupEwmSpec (fun r => r.gf) leakMatchupDf)[2]? = some none ∧
    (matchupEwmSpec (fun r => r.gf) leakMatchupDf)[3]? = some (some 0) := by
  simp [teamEwmCode, teamEwmSpec, matchupEwmCode, matchupEwmSpec, leakDf,
    leakMatchupDf, sortBy, insertLe, leTeamDate, leTeamOppDate, groupShift,
    groupShiftAux, priorsAux, alookup, ewmMean, ewmOut, ewmStep, ewmPriorSpec,
    strLtB, charListLtB]
  norm_num

/-- C2 fails on the code: querying `head_to_head("I", "P")` over a table
holding the row (team := "P", opponent := "I", gf := 2, ga := 1) yields a
record whose result is "L" — the queried team's perspective — whereas the
claim says the result is computed from the row's own team's perspective,
which would be "W" since the row has gf > ga. -/
theorem C2_result_not_row_perspective :
    ¬ ∀ r ∈ headToHead h2hDf "I" "P" 5, r.result = rowResult r.gf r.ga := by
  intro hall
  have hmem : (⟨5, "P", "I", 2, 1, "L"⟩ : H2HRec) ∈ headToHead h2hDf "I" "P" 5 := by
    simp [headToHead, h2hDf, mkFormRow, sortBy, insertLe, dateGeB,
      show (1:ℚ) < 2 from by norm_num]
  have hres := hall _ hmem
  rw [show H2HRec.result ⟨5, "P", "I", 2, 1, "L"⟩ = "L" from rfl] at hres
  rw [show rowResult (H2HRec.gf ⟨5, "P", "I", 2, 1, "L"⟩)
        (H2HRec.ga ⟨5, "P", "I", 2, 1, "L"⟩) = "W" from by
      norm_num [rowResult]] at hres
  exact absurd hres (by decide)

/-- C2 amended: every record returned by `head_to_head(team, opponent,
limit)` carries a result computed relative to the queried `team` argument:
the record's own gf/ga classification when the record's team is the
queried team, and the inverted classification otherwise. -/
theorem C2_result_queried_team_perspective :
    ∀ (df : List FormRow) (team opponent : String) (limit : Nat),
      ∀ r ∈ headToHead df team opponent limit,
        r.result = if r.team = team then rowResult r.gf r.ga
          else rowResult r.ga r.gf := by
  intro df team opponent limit r hr
  simp only [headToHead, List.mem_map] at hr
  obtain ⟨s, _, rfl⟩ := hr
  by_cases hteam : s.team = team <;> simp [hteam, rowResult]

/-- Witness for C2's amended theorem at the concrete one-row table. -/
theorem C2_result_queried_team_perspective_witness :
    H2HRec.result ⟨5, "P", "I", 2, 1, "L"⟩ =
      (if ("P" : String) = "I" then rowResult 2 1 else rowResult 1 2) := by
  have hmem : (⟨5, "P", "I", 2, 1, "L"⟩ : H2HRec) ∈ headToHead h2hDf "I" "P" 5 := by
    simp [headToHead, h2hDf, mkFormRow, sortBy, insertLe, dateGeB,
      show (1:ℚ) < 2 from by norm_num]
  exact C2_result_queried_team_perspective h2hDf "I" "P" 5 _ hmem

theorem lastOf_mem {α : Type _} : ∀ {l : List α} {a : α}, l.getLast? = some a → a ∈ l
  | [], _, h => by simp at h
  | [x], a, h => by
      simp only [List.getLast?_singleton, Option.some.injEq] at h
      simp [h]
  | x :: y :: t, a, h => by
      rw [List.getLast?_cons_cons] at h
      exact List.mem_cons_of_mem x (lastOf_mem h)

theorem pairwise_lastOf {α : Type _} {R : α → α → Prop} :
    ∀ {l : List α} {a x : α}, l.Pairwise R → l.getLast? = some a → x ∈ l →
      x = a ∨ R x a
  | [], _, _, _, h, _ => by simp at h
  | [y], a, x, _, h, hx => by
      simp only [List.getLast?_singleton, Option.some.injEq] at h
      simp only [List.mem_singleton] at hx
      exact Or.inl (hx.trans h)
  | y :: z :: t, a, x, hp, h, hx => by
      rw [List.getLast?_cons_cons] at h
      rcases List.pairwise_cons.mp hp with ⟨hy, hp2⟩
      rcases List.mem_cons.mp hx with rfl | hx2
      · exact Or.inr (hy a (lastOf_mem h))
      · exact pairwise_lastOf hp2 h hx2

/-- C5: for a team with at least one row, `_get_team_form` returns exactly
the four form values of the team's chronologically latest row (assuming
the data invariant of one row per (team, date), i.e. distinct dates within
the team); for a team with no rows it returns the default forms restricted
to the four team-form keys. -/
theorem C5_team_form_latest_row :
    ∀ (df : List FormRow) (team : String),
      (df.filter (fun x => decide (x.team = team)) = [] →
        teamForm df team = defaultTeamForms df) ∧
      (∀ r ∈ df, r.team = team →
        (df.filter (fun x => decide (x.team = team))).Pairwise
          (fun a b => a.date ≠ b.date) →
        (∀ x ∈ df, x.team = team → x.date ≤ r.date) →
        teamForm df team = ⟨r.gm_form, r.ga_form, r.xg_form, r.xga_form⟩) := by
  intro df team
  constructor
  · intro hnil
    simp [teamForm, teamHistory, hnil, sortBy]
  · intro r hr hrteam hdist hmax
    have hperm : (teamHistory df team).Perm
        (df.filter fun x => decide (x.team = team)) := sortBy_perm _ _
    have hrfil : r ∈ df.filter (fun x => decide (x.team = team)) := by
      simp [List.mem_filter, hr, hrteam]
    have hrhist : r ∈ teamHistory df team := hperm.mem_iff.mpr hrfil
    cases hlast : (teamHistory df team).getLast? with
    | none =>
        rw [List.getLast?_eq_none_iff] at hlast
        rw [hlast] at hrhist
        cases hrhist
    | some last =>
        have hlmem : last ∈ teamHistory df team := lastOf_mem hlast
        have hlfil := hperm.mem_iff.mp hlmem
        have hldf : last ∈ df := (List.mem_filter.mp hlfil).1
        have hlteam : last.team = team := by
          simpa using (List.mem_filter.mp hlfil).2
        have hsorted : (teamHistory df team).Pairwise
            (fun a b => dateLeB a b = true) := by
          apply sortBy_pairwise
          · intro a b
            simp only [dateLeB, decide_eq_true_eq]
            omega
          · intro a b c
            simp only [dateLeB, decide_eq_true_eq]
            omega
        have hreq : r = last := by
          rcases pairwise_lastOf hsorted hlast hrhist with h | h
          · exact h
          · have h1 : r.date ≤ last.date := by
              simpa [dateLeB] using h
            have h2 : last.date ≤ r.date := hmax last hldf hlteam
            by_contra hne
            exact List.Pairwise.forall (fun x y hxy => hxy.symm) hdist
              hrfil hlfil hne (Nat.le_antisymm h1 h2)
        subst hreq
        simp [teamForm, hlast]

/-- Witness for C5 on the concrete three-row table: team T's latest row is
`c5r2` (date 2) and its four form values are returned. -/
theorem C5_team_form_latest_row_witness :
    teamForm c5Df "T" = ⟨20, 21, 22, 23⟩ := by
  have h := (C5_team_form_latest_row c5Df "T").2 c5r2 (by simp [c5Df])
    (by rfl) (by decide) (by decide)
  exact h

/-- C6: when (team, opponent) share no history row, `_get_matchup_form`
returns the team's own form snapshot re-labeled into the matchup schema,
not the global defaults. -/
theorem C6_matchup_fallback_team_form :
    ∀ (df : List FormRow) (team opponent : String),
      (∀ r ∈ df, ¬ (r.team = team ∧ r.opponent = opponent)) →
      matchupForm df team opponent =
        ⟨(teamForm df team).gm_form, (teamForm df team).ga_form,
         (teamForm df team).xg_form, (teamForm df team).xga_form⟩ := by
  intro df team opponent h
  have hfil : df.filter
      (fun r => decide (r.team = team ∧ r.opponent = opponent)) = [] := by
    rw [List.filter_eq_nil_iff]
    intro a ha
    simpa using h a ha
  have hhist : matchupHistory df team opponent = [] := by
    unfold matchupHistory
    rw [hfil]
    rfl
  simp [matchupForm, hhist]

/-- Witness for C6: team T has rows in `c5Df` but never against V, so the
matchup form for (T, V) is T's own snapshot under the matchup keys. -/
theorem C6_matchup_fallback_team_form_witness :
    matchupForm c5Df "T" "V" =
      ⟨(teamForm c5Df "T").gm_form, (teamForm c5Df "T").ga_form,
       (teamForm c5Df "T").xg_form, (teamForm c5Df "T").xga_form⟩ :=
  C6_matchup_fallback_team_form c5Df "T" "V" (by decide)

/-- C9: `recent_results` returns at most `limit` entries, each in
{W, D, L}, the empty list for a team with no rows, the underlying rows
strictly date-descending (given the per-team distinct-date invariant),
and each entry is the gf/ga classification of its underlying row. -/
theorem C9_recent_results_props :
    ∀ (df : List FormRow) (team : String) (limit : Nat),
      (recentResults df team limit).length ≤ limit ∧
      (∀ s ∈ recentResults df team limit, s = "W" ∨ s = "D" ∨ s = "L") ∧
      ((∀ r ∈ df, r.team ≠ team) → recentResults df team limit = []) ∧
      ((df.filter (fun x => decide (x.team = team))).Pairwise
          (fun a b => a.date ≠ b.date) →
        (recentRows df team limit).Pairwise (fun a b => b.date < a.date)) ∧
      recentResults df team limit =
        (recentRows df team limit).map (fun r => rowResult r.gf r.ga) := by
  intro df team limit
  refine ⟨?_, ?_, ?_, ?_, rfl⟩
  · simp only [recentResults, recentRows, List.length_map, List.length_take]
    exact min_le_left _ _
  · intro s hs
    simp only [recentResults, List.mem_map] at hs
    obtain ⟨r, _, rfl⟩ := hs
    unfold rowResult
    split_ifs <;> simp
  · intro hnone
    have hfil : df.filter (fun x => decide (x.team = team)) = [] := by
      rw [List.filter_eq_nil_iff]
      intro a ha
      simpa using hnone a ha
    simp [recentResults, recentRows, hfil, sortBy]
  · intro hdist
    have hsorted : (sortBy dateGeB
        (df.filter fun x => decide (x.team = team))).Pairwise
        (fun a b => dateGeB a b = true) := by
      apply sortBy_pairwise
      · intro a b
        simp only [dateGeB, decide_eq_true_eq]
        omega
      · intro a b c
        simp only [dateGeB, decide_eq_true_eq]
        omega
    have hdist2 : (sortBy dateGeB
        (df.filter fun x => decide (x.team = team))).Pairwise
        (fun a b => a.date ≠ b.date) :=
      (List.Perm.pairwise_iff (fun hxy => hxy.symm)
        (sortBy_perm dateGeB _)).mpr hdist
    have hlt : (sortBy dateGeB
        (df.filter fun x => decide (x.team = team))).Pairwise
        (fun a b => b.date < a.date) := by
      refine (hsorted.and hdist2).imp ?_
      intro a b hab
      rcases hab with ⟨h1, h2⟩
      have h3 : b.date ≤ a.date := by simpa [dateGeB] using h1
      omega
    unfold recentRows
    exact hlt.take

/-- Witness for C9 at the concrete table: team T's selected rows are
strictly date-descending, and the unknown team Z yields the empty list. -/
theorem C9_recent_results_props_witness :
    (recentRows c5Df "T" 5).Pairwise (fun a b => b.date < a.date) ∧
    recentResults c5Df "Z" 5 = [] :=
  ⟨(C9_recent_results_props c5Df "T" 5).2.2.2.1 (by decide),
   (C9_recent_results_props c5Df "Z" 5).2.2.1 (by decide)⟩

theorem charToNat_inj {a b : Char} (h : a.toNat = b.toNat) : a = b :=
  Char.ext (UInt32.ext h)

theorem charListLtB_irrefl : ∀ l : List Char, charListLtB l l = false
  | [] => rfl
  | a :: as => by simp [charListLtB, charListLtB_irrefl as]

theorem charListLtB_trans : ∀ (l1 l2 l3 : List Char),
    charListLtB l1 l2 = true → charListLtB l2 l3 = true →
    charListLtB l1 l3 = true
  | l1, [], _ => by
      intro h12 _
      cases l1 <;> simp [charListLtB] at h12
  | [], _ :: _, [] => by
      intro _ h23
      simp [charListLtB] at h23
  | [], _ :: _, _ :: _ => by
      intro _ _
      rfl
  | _ :: _, _ :: _, [] => by
      intro _ h23
      simp [charListLtB] at h23
  | a :: as, b :: bs, c :: cs => by
      intro h12 h23
      simp only [charListLtB] at h12 h23 ⊢
      by_cases hab : a.toNat < b.toNat <;> by_cases hba : b.toNat < a.toNat <;>
        by_cases hbc : b.toNat < c.toNat <;> by_cases hcb : c.toNat < b.toNat <;>
        by_cases hac : a.toNat < c.toNat <;> by_cases hca : c.toNat < a.toNat <;>
        simp only [hab, hba, hbc, hcb, hac, hca, if_true, if_false, if_pos, if_neg,
          not_false_iff, Bool.false_eq_true] at h12 h23 ⊢ <;>
        first
          | rfl
          | omega
          | exact h12.elim
          | exact h23.elim
          | exact charListLtB_trans as bs cs h12 h23

theorem charListLtB_trichotomy : ∀ (l1 l2 : List Char),
    l1 = l2 ∨ charListLtB l1 l2 = true ∨ charListLtB l2 l1 = true
  | [], [] => Or.inl rfl
  | [], _ :: _ => Or.inr (Or.inl rfl)
  | _ :: _, [] => Or.inr (Or.inr rfl)
  | a :: as, b :: bs => by
      by_cases hab : a.toNat < b.toNat
      · exact Or.inr (Or.inl (by simp [charListLtB, hab]))
      · by_cases hba : b.toNat < a.toNat
        · exact Or.inr (Or.inr (by simp [charListLtB, hba, hab]))
        · have heq : a = b := charToNat_inj (by omega)
          subst heq
          rcases charListLtB_trichotomy as bs with h | h | h
          · exact Or.inl (by rw [h])
          · exact Or.inr (Or.inl (by simp [charListLtB, h]))
          · exact Or.inr (Or.inr (by simp [charListLtB, h]))

theorem strLtB_irrefl (a : String) : strLtB a a = false :=
  charListLtB_irrefl a.data

theorem strLtB_trans (a b c : String) :
    strLtB a b = true → strLtB b c = true → strLtB a c = true :=
  charListLtB_trans a.data b.data c.data

theorem strLtB_trichotomy (a b : String) :
    a = b ∨ strLtB a b = true ∨ strLtB b a = true := by
  rcases charListLtB_trichotomy a.data b.data with h | h | h
  · exact Or.inl (String.ext h)
  · exact Or.inr (Or.inl h)
  · exact Or.inr (Or.inr h)

theorem mem_insertSortedNodup (x y : String) : ∀ l : List String,
    y ∈ insertSortedNodup x l ↔ y = x ∨ y ∈ l
  | [] => by simp [insertSortedNodup]
  | h :: t => by
      simp only [insertSortedNodup]
      split_ifs with h1 h2
      · simp [List.mem_cons]
      · subst h2
        simp [List.mem_cons]
      · simp only [List.mem_cons, mem_insertSortedNodup x y t]
        tauto

theorem pairwise_insertSortedNodup (x : String) : ∀ l : List String,
    l.Pairwise (fun a b => strLtB a b = true) →
    (insertSortedNodup x l).Pairwise (fun a b => strLtB a b = true)
  | [], _ => by simp [insertSortedNodup]
  | h :: t, hp => by
      rcases List.pairwise_cons.mp hp with ⟨hh, ht⟩
      simp only [insertSortedNodup]
      split_ifs with h1 h2
      · refine List.pairwise_cons.mpr ⟨?_, hp⟩
        intro y hy
        rcases List.mem_cons.mp hy with rfl | hy2
        · exact h1
        · exact strLtB_trans x h y h1 (hh y hy2)
      · exact hp
      · refine List.pairwise_cons.mpr ⟨?_, pairwise_insertSortedNodup x t ht⟩
        intro y hy
        rcases (mem_insertSortedNodup x y t).mp hy with rfl | hy2
        · rcases strLtB_trichotomy y h with h3 | h3 | h3
          · exact absurd h3 h2
          · exact absurd h3 (by simpa using h1)
          · exact h3
        · exact hh y hy2

theorem mem_dedupSorted_foldl (y : String) : ∀ (l acc : List String),
    y ∈ l.foldl (fun acc x => insertSortedNodup x acc) acc ↔
      y ∈ acc ∨ y ∈ l
  | [], acc => by simp
  | x :: xs, acc => by
      simp only [List.foldl_cons]
      rw [mem_dedupSorted_foldl y xs (insertSortedNodup x acc),
        mem_insertSortedNodup]
      simp only [List.mem_cons]
      tauto

theorem mem_dedupSorted (y : String) (l : List String) :
    y ∈ dedupSorted l ↔ y ∈ l := by
  unfold dedupSorted
  rw [mem_dedupSorted_foldl]
  simp

theorem pairwise_dedupSorted_foldl : ∀ (l acc : List String),
    acc.Pairwise (fun a b => strLtB a b = true) →
    (l.foldl (fun acc x => insertSortedNodup x acc) acc).Pairwise
      (fun a b => strLtB a b = true)
  | [], _, h => h
  | x :: xs, acc, h => by
      simp only [List.foldl_cons]
      exact pairwise_dedupSorted_foldl xs _ (pairwise_insertSortedNodup x acc h)

theorem pairwise_dedupSorted (l : List String) :
    (dedupSorted l).Pairwise (fun a b => strLtB a b = true) :=
  pairwise_dedupSorted_foldl l [] List.Pairwise.nil

/-- C10: `list_formations` drops every missing formation value before
aggregating: its output is strictly sorted by code point, duplicate-free,
and a label belongs to it exactly when some row carries it as a
non-missing formation or opponent-formation value. -/
theorem C10_list_formations_sorted_union :
    ∀ df : List FormRow,
      (listFormations df).Pairwise (fun a b => strLtB a b = true) ∧
      (listFormations df).Nodup ∧
      (∀ s, s ∈ listFormations df ↔
        ∃ r ∈ df, r.formation = some s ∨ r.oppFormation = some s) := by
  intro df
  have hpw : (listFormations df).Pairwise (fun a b => strLtB a b = true) :=
    pairwise_dedupSorted _
  refine ⟨hpw, ?_, ?_⟩
  · refine hpw.imp ?_
    intro a b hab heq
    subst heq
    rw [strLtB_irrefl] at hab
    exact absurd hab (by simp)
  · intro s
    rw [listFormations, mem_dedupSorted, List.mem_append,
      List.mem_filterMap, List.mem_filterMap]
    constructor
    · rintro (⟨r, hr, hf⟩ | ⟨r, hr, hf⟩)
      · exact ⟨r, hr, Or.inl hf⟩
      · exact ⟨r, hr, Or.inr hf⟩
    · rintro ⟨r, hr, hf | hf⟩
      · exact Or.inl ⟨r, hr, hf⟩
      · exact Or.inr ⟨r, hr, hf⟩

/-- Witness for C10: on the concrete two-row table the two non-missing
labels are listed; the missing (`none`) slots contribute nothing. -/
theorem C10_list_formations_sorted_union_witness :
    ("442" : String) ∈ listFormations c10Df ∧
    ("352" : String) ∈ listFormations c10Df :=
  ⟨((C10_list_formations_sorted_union c10Df).2.2 "442").mpr
      ⟨c10r1, by simp [c10Df], Or.inl rfl⟩,
   ((C10_list_formations_sorted_union c10Df).2.2 "352").mpr
      ⟨c10r2, by simp [c10Df], Or.inr rfl⟩⟩

/-- C4: the three-stage fill on a derived column is, row by row, the
three-tier fallback in this order: a present value is kept; a missing
value takes the row's team's mean over the column; failing that, the mean
of the whole column as it stands after the team-mean fill; failing that,
0.0. -/
theorem C4_three_tier_fallback :
    ∀ (col : List (String × Option ℚ)) (i : Nat) (t : String) (v : Option ℚ),
      col[i]? = some (t, v) →
      (fillDerived col)[i]? = some (t, some (
        match v with
        | some x => x
        | none =>
            match teamMeanCol col t with
            | some m => m
            | none => (colMean ((fillTeamMean col).map Prod.snd)).getD 0)) := by
  intro col i t v hv
  simp only [fillDerived, fillZero, fillColMean, fillTeamMean,
    List.getElem?_map, hv, Option.map_some]
  cases v with
  | some x => simp
  | none =>
      cases hm : teamMeanCol col t with
      | some m => simp [fillTeamMean, hm]
      | none => simp [fillTeamMean, hm]

/-- Witness for C4 at the concrete column: team A's missing entry gets
team A's mean 2; team B has no valid entry, so its row gets the mean of
the column after the team-mean fill, which is also 2. -/
theorem C4_three_tier_fallback_witness :
    (fillDerived c4Col)[1]? = some ("A", some 2) ∧
    (fillDerived c4Col)[2]? = some ("B", some 2) := by
  constructor
  · have h := C4_three_tier_fallback c4Col 1 "A" none (by rfl)
    rw [h]
    simp [teamMeanCol, colMean, c4Col]
  · have h := C4_three_tier_fallback c4Col 2 "B" none (by rfl)
    rw [h]
    simp [teamMeanCol, colMean, c4Col, fillTeamMean]

theorem npRound_abs_le (x : ℚ) : |x - (npRound x : ℚ)| ≤ 1/2 := by
  have h0 : ((Int.floor x : ℤ) : ℚ) ≤ x := Int.floor_le x
  have h1 : x < ((Int.floor x : ℤ) : ℚ) + 1 := Int.lt_floor_add_one x
  unfold npRound
  split_ifs with hlt hgt heven
  · rw [abs_of_nonneg (by linarith)]
    linarith
  · push_cast
    rw [abs_of_nonpos (by linarith)]
    linarith
  · rw [abs_of_nonneg (by linarith)]
    linarith
  · push_cast
    rw [abs_of_nonpos (by linarith)]
    linarith

theorem npRound_tie_even (x : ℚ) (h : |x - (npRound x : ℚ)| = 1/2) :
    Even (npRound x) := by
  have h0 : ((Int.floor x : ℤ) : ℚ) ≤ x := Int.floor_le x
  have h1 : x < ((Int.floor x : ℤ) : ℚ) + 1 := Int.lt_floor_add_one x
  unfold npRound at h ⊢
  split_ifs at h ⊢ with hlt hgt heven
  · exfalso
    rw [abs_of_nonneg (by linarith)] at h
    linarith
  · exfalso
    push_cast at h
    rw [abs_of_nonpos (by linarith)] at h
    linarith
  · exact Int.even_iff.mpr heven
  · exact Int.even_add_one.mpr (fun he => heven (Int.even_iff.mp he))

/-- C7: both round fields of `predict` are obtained by rounding the raw
prediction to the nearest integer — ties broken half-to-even — and
clamping to [0, 15]; in particular raw -0.3 yields 0, raw 15.9 yields 15
and raw 2.5 yields 2. -/
theorem C7_round_half_even_clamp :
    (∀ (t o v f g : String) (gf ga : ℚ),
      (predictFrom t o v f g gf ga).predGoalsForRound = npClip 0 15 (npRound gf) ∧
      (predictFrom t o v f g gf ga).predGoalsAgainstRound = npClip 0 15 (npRound ga) ∧
      0 ≤ npClip 0 15 (npRound gf) ∧ npClip 0 15 (npRound gf) ≤ 15) ∧
    (∀ x : ℚ, |x - (npRound x : ℚ)| ≤ 1/2) ∧
    (∀ x : ℚ, |x - (npRound x : ℚ)| = 1/2 → Even (npRound x)) ∧
    (predictFrom "" "" "" "" "" (-3/10) (159/10)).predGoalsForRound = 0 ∧
    (predictFrom "" "" "" "" "" (-3/10) (159/10)).predGoalsAgainstRound = 15 ∧
    (predictFrom "" "" "" "" "" (5/2) 0).predGoalsForRound = 2 := by
  have hm3 : npRound ((-3 : ℚ)/10) = 0 := by norm_num [npRound]
  have h159 : npRound ((159 : ℚ)/10) = 16 := by norm_num [npRound]
  have h52 : npRound ((5 : ℚ)/2) = 2 := by norm_num [npRound]
  refine ⟨?_, npRound_abs_le, npRound_tie_even, ?_, ?_, ?_⟩
  · intro t o v f g gf ga
    refine ⟨rfl, rfl, ?_, ?_⟩
    · unfold npClip
      omega
    · unfold npClip
      omega
  · simp only [predictFrom]
    rw [hm3]
    decide
  · simp only [predictFrom]
    rw [h159]
    decide
  · simp only [predictFrom]
    rw [h52]
    decide

/-- Witness for C7's tie clause at the concrete raw value 2.5: the
distance to the rounded value is exactly one half, and the rounded value
is even. -/
theorem C7_round_half_even_clamp_witness : Even (npRound ((5:ℚ)/2)) := by
  apply C7_round_half_even_clamp.2.2.1
  have h : npRound ((5:ℚ)/2) = 2 := by norm_num [npRound]
  rw [h]
  norm_num

/-- C8: the result letter of `predict` is "W"/"L"/"D" by comparing the
rounded integers, not the raw floats: rounds equal forces "D" even for
different raw values; rounded (2,1) gives "W", (1,1) gives "D", (0,3)
gives "L". -/
theorem C8_result_from_rounded :
    (∀ (t o v f g : String) (gf ga : ℚ),
      ((predictFrom t o v f g gf ga).predGoalsForRound >
          (predictFrom t o v f g gf ga).predGoalsAgainstRound →
        (predictFrom t o v f g gf ga).result = "W") ∧
      ((predictFrom t o v f g gf ga).predGoalsForRound <
          (predictFrom t o v f g gf ga).predGoalsAgainstRound →
        (predictFrom t o v f g gf ga).result = "L") ∧
      ((predictFrom t o v f g gf ga).predGoalsForRound =
          (predictFrom t o v f g gf ga).predGoalsAgainstRound →
        (predictFrom t o v f g gf ga).result = "D") ∧
      (npClip 0 15 (npRound gf) = npClip 0 15 (npRound ga) →
        (predictFrom t o v f g gf ga).result = "D")) ∧
    ((7:ℚ)/5 ≠ 6/5 ∧ (predictFrom "" "" "" "" "" (7/5) (6/5)).result = "D") ∧
    (predictFrom "" "" "" "" "" (19/10) (6/5)).result = "W" ∧
    (predictFrom "" "" "" "" "" (-3/10) (16/5)).result = "L" := by
  have h75 : npRound ((7 : ℚ)/5) = 1 := by norm_num [npRound]
  have h65 : npRound ((6 : ℚ)/5) = 1 := by norm_num [npRound]
  have h1910 : npRound ((19 : ℚ)/10) = 2 := by norm_num [npRound]
  have hm3 : npRound ((-3 : ℚ)/10) = 0 := by norm_num [npRound]
  have h165 : npRound ((16 : ℚ)/5) = 3 := by norm_num [npRound]
  refine ⟨?_, ⟨by norm_num, ?_⟩, ?_, ?_⟩
  · intro t o v f g gf ga
    simp only [predictFrom]
    refine ⟨?_, ?_, ?_, ?_⟩ <;> intro h <;>
      split_ifs with h1 h2 <;>
      first
        | rfl
        | (exfalso; omega)
  · simp only [predictFrom]
    rw [h75, h65]
    decide
  · simp only [predictFrom]
    rw [h1910, h65]
    decide
  · simp only [predictFrom]
    rw [hm3, h165]
    decide

/-- Witness for C8's rounds-equal clause: the raw values 1.4 and 1.2
differ but both round to 1, so the predicted result is a draw. -/
theorem C8_result_from_rounded_witness :
    (predictFrom "" "" "" "" "" ((7:ℚ)/5) ((6:ℚ)/5)).result = "D" := by
  apply (C8_result_from_rounded.1 "" "" "" "" "" ((7:ℚ)/5) ((6:ℚ)/5)).2.2.2
  have h75 : npRound ((7 : ℚ)/5) = 1 := by norm_num [npRound]
  have h65 : npRound ((6 : ℚ)/5) = 1 := by norm_num [npRound]
  rw [h75, h65]

/-- C3 fails on the code: the source defines no ModelNotLoadedError and
`predict` performs no loaded-artifacts check.  Evaluated at a state with
all three artifact attributes unset, the embedded `predict` fails with the
generic missing-attribute error, not with a ModelNotLoadedError. -/
theorem C3_no_model_not_loaded_on_unloaded_state :
    predictService ⟨[], none, none, none⟩ "T" "O" "Home" "F" "G" =
      Except.error PyError.attributeMissing ∧
    ¬ predictService ⟨[], none, none, none⟩ "T" "O" "Home" "F" "G" =
      Except.error PyError.modelNotLoaded := by
  constructor
  · rfl
  · intro h
    rw [show predictService ⟨[], none, none, none⟩ "T" "O" "Home" "F" "G" =
        Except.error PyError.attributeMissing from rfl] at h
    simp at h

/-- C3 amended: there is no ModelNotLoadedError path.  Construction loads
every artifact unconditionally, so any constructed service has all three
artifacts present; on such a state `predict` always returns a result; and
no state at all makes `predict` fail with the spec's ModelNotLoadedError. -/
theorem C3_predict_never_model_not_loaded :
    (∀ (df : List FormRow) (pre : Option Encoder) (mgf mga : Option Model)
        (s : ServiceState), initService df pre mgf mga = some s →
      s.preprocessor.isSome ∧ s.model_gf.isSome ∧ s.model_ga.isSome) ∧
    (∀ (s : ServiceState) (team opponent venue formation oppF : String),
      s.preprocessor.isSome → s.model_gf.isSome → s.model_ga.isSome →
      ∃ r, predictService s team opponent venue formation oppF = Except.ok r) ∧
    (∀ (s : ServiceState) (team opponent venue formation oppF : String),
      predictService s team opponent venue formation oppF ≠
        Except.error PyError.modelNotLoaded) := by
  refine ⟨?_, ?_, ?_⟩
  · intro df pre mgf mga s hinit
    rcases pre with _ | p
    · simp [initService] at hinit
    rcases mgf with _ | g
    · simp [initService] at hinit
    rcases mga with _ | a
    · simp [initService] at hinit
    simp only [initService, Option.some.injEq] at hinit
    subst hinit
    exact ⟨rfl, rfl, rfl⟩
  · intro s team opponent venue formation oppF hp hg ha
    rcases s with ⟨df, pre, mgf, mga⟩
    rcases pre with _ | p
    · simp at hp
    rcases mgf with _ | g
    · simp at hg
    rcases mga with _ | a
    · simp at ha
    exact ⟨_, rfl⟩
  · intro s team opponent venue formation oppF h
    rcases s with ⟨df, pre, mgf, mga⟩
    rcases pre with _ | p <;> rcases mgf with _ | g <;> rcases mga with _ | a <;>
      simp [predictService] at h

/-- Witness for C3's amended theorem: a service built with concrete
trivial artifacts answers `predict` with a result. -/
theorem C3_predict_never_model_not_loaded_witness :
    ∃ r, predictService ⟨[], some trivEncoder, some trivModel, some trivModel⟩
      "T" "O" "Home" "F" "G" = Except.ok r :=
  C3_predict_never_model_not_loaded.2.1
    ⟨[], some trivEncoder, some trivModel, some trivModel⟩
    "T" "O" "Home" "F" "G" rfl rfl rfl

end SerieA
